import Mathlib

/-!
Shallow embedding of the file-storage web service (Express server in
`server.js` / the richer draft): multer disk storage (filename sanitization,
10 MiB size limit), the in-memory `files` registry, and the five API
handlers (upload, list, download, delete-one, delete-all), together with the
trailing error-handling middleware.

Machine-level conventions of the embedding:
* `Date.now()` and the random components are passed in as explicit
  parameters (`now`, `rnd`, `rndStr`), since the handlers read them afresh
  on each request.
* The file system is modelled by the list `disk` of paths for which
  `fs.existsSync` is true, plus a list `unlinkFails` of paths for which
  `fs.unlinkSync` throws; a thrown exception lands in the handler's
  `catch` block exactly as in the source.
* JSON response bodies are modelled by the inductive `Json`; `res.download`
  is a distinct response-body constructor since it streams binary data.
-/

/-- A JSON value, as produced by Express `res.json`. -/
inductive Json where
  | str : String → Json
  | num : Nat → Json
  | arr : List Json → Json
  | obj : List (String × Json) → Json

/-- Body of an HTTP response: a JSON document, or a file download stream
(`res.download(path, name)`). -/
inductive RespBody where
  | json : Json → RespBody
  | download : String → String → RespBody

/-- An HTTP response: status code plus body. -/
structure HttpResponse where
  status : Nat
  body : RespBody

/-- A registry entry, mirroring the `fileInfo` object literal built in the
upload handler (fields in source order). -/
structure FileRecord where
  id : String
  name : String
  size : Nat
  path : String
  uploadDate : String
  type : String
deriving DecidableEq, Inhabited, Repr

/-- Field lookup in a JSON object (`none` on non-objects). -/
def Json.getField : Json → String → Option Json
  | .obj fields, key => fields.lookup key
  | _, _ => none

/-- The keys of a JSON object, in order (empty for non-objects). -/
def Json.fieldNames : Json → List String
  | .obj fields => fields.map Prod.fst
  | _ => []

/-- The JSON payload of a response body, if it is JSON. -/
def RespBody.jsonOf : RespBody → Option Json
  | .json j => some j
  | .download _ _ => none

/-- Serialization of a `FileRecord` by `res.json`: every own enumerable
property of the JS object is emitted, in insertion order. -/
def fileRecordToJson (f : FileRecord) : Json :=
  .obj [("id", .str f.id), ("name", .str f.name), ("size", .num f.size),
        ("path", .str f.path), ("uploadDate", .str f.uploadDate),
        ("type", .str f.type)]

/-- The multipart file part as supplied by the client (before multer has
stored it): original filename, byte length, declared MIME type. -/
structure RawFilePart where
  originalname : String
  size : Nat
  mimetype : String
deriving DecidableEq, Repr

/-- `req.file` after multer's disk storage has run. -/
structure StoredFilePart where
  originalname : String
  size : Nat
  path : String
  mimetype : String
deriving DecidableEq, Repr

/-- multer `limits.fileSize`: `10 * 1024 * 1024`. -/
def fileSizeLimit : Nat := 10 * 1024 * 1024

/-- One character of the filename sanitizer: the regex class
`[^a-zA-Z0-9.\-]` is replaced by `_`. -/
def sanitizeChar (c : Char) : Char :=
  if c.isAlpha || c.isDigit || c = '.' || c = '-' then c else '_'

/-- `file.originalname.replace(/[^a-zA-Z0-9.\-]/g, '_')` — the regex matches
single characters, so the replacement is a character-wise map. -/
def sanitizeFilename (s : String) : String :=
  ⟨s.data.map sanitizeChar⟩

/-- The storage filename chosen by multer's `diskStorage.filename` callback:
`Date.now() + '-' + Math.round(Math.random() * 1E9) + '-' + sanitizedName`. -/
def storageFilename (now rnd : Nat) (originalname : String) : String :=
  Nat.repr now ++ "-" ++ Nat.repr rnd ++ "-" ++ sanitizeFilename originalname

/-- The upload directory used by `diskStorage.destination`. -/
def uploadDir : String := "uploads/"

/-- The `req.file.path` multer reports: upload directory + storage filename. -/
def storagePathOf (now rnd : Nat) (originalname : String) : String :=
  uploadDir ++ storageFilename now rnd originalname

/-- multer disk storage: writes the blob under the generated name and fills
in `req.file`. -/
def diskStorageFile (now rnd : Nat) (p : RawFilePart) : StoredFilePart :=
  { originalname := p.originalname, size := p.size,
    path := storagePathOf now rnd p.originalname, mimetype := p.mimetype }

/-- `generateId()`:
`Date.now().toString() + '-' + Math.random().toString(36).substr(2, 9)`.
The random suffix is passed in as the string `rndStr`. -/
def generateId (now : Nat) (rndStr : String) : String :=
  Nat.repr now ++ "-" ++ rndStr

/-- The `fileInfo` record built by the upload handler. -/
def mkFileInfo (now : Nat) (rndStr : String) (uploadDate : String)
    (f : StoredFilePart) : FileRecord :=
  { id := generateId now rndStr, name := f.originalname, size := f.size,
    path := f.path, uploadDate := uploadDate, type := f.mimetype }

/-- The upload route handler body (`app.post('/api/upload')`): reject with
400 `NO_FILE` when `req.file` is absent, otherwise push the new record and
answer with the record and the new total count. -/
def uploadHandler (files : List FileRecord) (reqFile : Option StoredFilePart)
    (now : Nat) (rndStr : String) (uploadDate : String) :
    HttpResponse × List FileRecord :=
  match reqFile with
  | none =>
    ({ status := 400,
       body := .json (.obj [("error", .str "No file uploaded"),
                            ("code", .str "NO_FILE")]) }, files)
  | some f =>
    let fileInfo := mkFileInfo now rndStr uploadDate f
    let files' := files ++ [fileInfo]
    ({ status := 200,
       body := .json (.obj [("message", .str "File uploaded successfully"),
                            ("file", fileRecordToJson fileInfo),
                            ("totalFiles", .num files'.length)]) }, files')

/-- The trailing error-handling middleware (`app.use((error, req, res, next))`):
any error forwarded by earlier middleware yields a 500 `INTERNAL_ERROR`. -/
def errorMiddlewareResponse : HttpResponse :=
  { status := 500,
    body := .json (.obj [("error", .str "Something went wrong!"),
                         ("code", .str "INTERNAL_ERROR")]) }

/-- The whole `POST /api/upload` pipeline: multer runs first; a file part
larger than `fileSizeLimit` makes multer abort with `LIMIT_FILE_SIZE`,
which skips the route handler and lands in the error middleware.
Otherwise multer stores the blob and the route handler runs. -/
def uploadRoute (files : List FileRecord) (part : Option RawFilePart)
    (now rnd : Nat) (rndStr : String) (uploadDate : String) :
    HttpResponse × List FileRecord :=
  match part with
  | none => uploadHandler files none now rndStr uploadDate
  | some p =>
    if p.size > fileSizeLimit then
      (errorMiddlewareResponse, files)
    else
      uploadHandler files (some (diskStorageFile now rnd p)) now rndStr uploadDate

/-- `GET /api/files`: the whole registry plus its count. -/
def listHandler (files : List FileRecord) : HttpResponse :=
  { status := 200,
    body := .json (.obj [("files", .arr (files.map fileRecordToJson)),
                         ("count", .num files.length)]) }

/-- `GET /api/files/:id`: 404 `NOT_FOUND` (with the id) when the id is not in
the registry; 404 `FILE_MISSING` when the record exists but
`fs.existsSync(file.path)` is false; otherwise `res.download`. -/
def downloadHandler (files : List FileRecord) (disk : List String)
    (fileId : String) : HttpResponse :=
  match files.find? (fun f => f.id == fileId) with
  | none =>
    { status := 404,
      body := .json (.obj [("error", .str "File not found"),
                           ("code", .str "NOT_FOUND"),
                           ("id", .str fileId)]) }
  | some file =>
    if file.path ∈ disk then
      { status := 200, body := .download file.path file.name }
    else
      { status := 404,
        body := .json (.obj [("error", .str "File not found on server"),
                             ("code", .str "FILE_MISSING")]) }

/-- `DELETE /api/files/:id`: find the first matching index; 404 if absent;
otherwise unlink the blob when it exists (a throwing `unlinkSync` jumps to
the catch block, so the splice never runs) and splice the record out.
Returns (response, registry after, disk after). -/
def deleteHandler (files : List FileRecord) (disk unlinkFails : List String)
    (fileId : String) : HttpResponse × List FileRecord × List String :=
  match files.findIdx? (fun f => f.id == fileId) with
  | none =>
    ({ status := 404,
       body := .json (.obj [("error", .str "File not found"),
                            ("code", .str "NOT_FOUND")]) }, files, disk)
  | some fileIndex =>
    let file := files.getD fileIndex default
    if file.path ∈ disk then
      if file.path ∈ unlinkFails then
        ({ status := 500,
           body := .json (.obj [("error", .str "Internal server error"),
                                ("code", .str "DELETE_ERROR")]) },
         files, disk)
      else
        ({ status := 200,
           body := .json (.obj [("message", .str "File deleted successfully"),
                                ("deletedFile", .str file.name)]) },
         files.eraseIdx fileIndex, disk.erase file.path)
    else
      ({ status := 200,
         body := .json (.obj [("message", .str "File deleted successfully"),
                              ("deletedFile", .str file.name)]) },
       files.eraseIdx fileIndex, disk)

/-- The `files.forEach` blob-removal loop of the delete-all handler: walk the
records in order, unlinking each blob that exists; a throwing `unlinkSync`
aborts the loop (first component `false`). Returns (no throw?, disk after). -/
def deleteBlobs : List FileRecord → List String → List String →
    Bool × List String
  | [], disk, _ => (true, disk)
  | f :: rest, disk, unlinkFails =>
    if f.path ∈ disk then
      if f.path ∈ unlinkFails then (false, disk)
      else deleteBlobs rest (disk.erase f.path) unlinkFails
    else deleteBlobs rest disk unlinkFails

/-- `DELETE /api/files`: remove every blob, record the count, clear the
registry. A thrown unlink lands in the catch block: 500 `CLEAR_ERROR` and
the registry is left as it was. -/
def clearHandler (files : List FileRecord) (disk unlinkFails : List String) :
    HttpResponse × List FileRecord × List String :=
  match deleteBlobs files disk unlinkFails with
  | (true, disk') =>
    ({ status := 200,
       body := .json (.obj [("message", .str "All files deleted successfully"),
                            ("deletedCount", .num files.length)]) },
     [], disk')
  | (false, disk') =>
    ({ status := 500,
       body := .json (.obj [("error", .str "Internal server error"),
                            ("code", .str "CLEAR_ERROR")]) },
     files, disk')

/-- Parameters of one upload request: the file part plus the clock and
random values the handler samples while serving it. -/
structure UploadReq where
  part : RawFilePart
  now : Nat
  rnd : Nat
  rndStr : String
  uploadDate : String
deriving Repr

/-- The record an upload request inserts when it succeeds. -/
def mkRec (r : UploadReq) : FileRecord :=
  mkFileInfo r.now r.rndStr r.uploadDate (diskStorageFile r.now r.rnd r.part)

/-- Serve a sequence of upload requests, collecting the responses and
threading the registry. -/
def processUploads (files : List FileRecord) :
    List UploadReq → List HttpResponse × List FileRecord
  | [] => ([], files)
  | r :: rest =>
    let step := uploadRoute files (some r.part) r.now r.rnd r.rndStr r.uploadDate
    let next := processUploads step.2 rest
    (step.1 :: next.1, next.2)

/-- Field lookup in a response's JSON body. -/
def HttpResponse.jsonField (r : HttpResponse) (key : String) : Option Json :=
  r.body.jsonOf.bind (fun j => j.getField key)

/-- The success response of the upload handler for record `rec` when the
registry holds `total` records after the push. -/
def uploadSuccessResponse (rec : FileRecord) (total : Nat) : HttpResponse :=
  { status := 200,
    body := .json (.obj [("message", .str "File uploaded successfully"),
                         ("file", fileRecordToJson rec),
                         ("totalFiles", .num total)]) }

/-- The responses a run of successful uploads produces when the registry
already holds `base` records: the k-th response reports
`totalFiles = base + k + 1`. -/
def expectedUploadResponses (base : Nat) : List UploadReq → List HttpResponse
  | [] => []
  | r :: rest =>
    uploadSuccessResponse (mkRec r) (base + 1) :: expectedUploadResponses (base + 1) rest

/-- A storage key stays inside the storage root when joined to it: it is
nonempty, not a dot-directory, and contains no path separator. -/
def resolvesInsideRoot (key : String) : Prop :=
  key ≠ "" ∧ key ≠ "." ∧ key ≠ ".." ∧ ∀ c ∈ key.data, c ≠ '/' ∧ c ≠ '\\'

/-- A sample file part used for concrete evaluations. -/
def examplePart : RawFilePart :=
  { originalname := "a.txt", size := 5, mimetype := "text/plain" }

/-- A sample upload request built from `examplePart`. -/
def exampleReq : UploadReq :=
  { part := examplePart, now := 5, rnd := 7, rndStr := "abc", uploadDate := "d" }

/-- A sample registry record used for concrete evaluations. -/
def exampleRecord : FileRecord :=
  { id := "1-a", name := "a.txt", size := 5, path := "uploads/1-2-a.txt",
    uploadDate := "d", type := "text/plain" }

/-- A second sample registry record with a different id, name and path. -/
def exampleRecordB : FileRecord :=
  { id := "2-b", name := "b.txt", size := 9, path := "uploads/2-3-b.txt",
    uploadDate := "e", type := "text/plain" }

/-! ### Facts about `Nat.repr`: every character is a decimal digit, and the
representation is injective. These underpin the id-generation and
storage-key analyses. -/

theorem digitChar_isDigit : ∀ m : Nat, m < 10 → (Nat.digitChar m).isDigit = true := by
  decide

theorem digitChar_inj_of_lt : ∀ a : Nat, a < 10 → ∀ b : Nat, b < 10 →
    Nat.digitChar a = Nat.digitChar b → a = b := by
  decide

theorem toDigitsCore_all_digits (f : Nat) :
    ∀ (n : Nat) (l : List Char), (∀ c ∈ l, c.isDigit = true) →
      ∀ c ∈ Nat.toDigitsCore 10 f n l, c.isDigit = true := by
  induction f with
  | zero =>
    intro n l hl c hc
    simp only [Nat.toDigitsCore] at hc
    exact hl c hc
  | succ f ih =>
    intro n l hl c hc
    simp only [Nat.toDigitsCore] at hc
    by_cases h : n / 10 = 0
    · rw [if_pos h] at hc
      rcases List.mem_cons.mp hc with rfl | hmem
      · exact digitChar_isDigit _ (Nat.mod_lt n (by norm_num))
      · exact hl c hmem
    · rw [if_neg h] at hc
      refine ih (n / 10) (Nat.digitChar (n % 10) :: l) ?_ c hc
      intro d hd
      rcases List.mem_cons.mp hd with rfl | hmem
      · exact digitChar_isDigit _ (Nat.mod_lt n (by norm_num))
      · exact hl d hmem

theorem repr_data_all_digits (n : Nat) : ∀ c ∈ (Nat.repr n).data, c.isDigit = true := by
  intro c hc
  exact toDigitsCore_all_digits (n + 1) n [] (by simp) c hc

theorem repr_no_dash (n : Nat) : '-' ∉ (Nat.repr n).data := by
  intro h
  exact absurd (repr_data_all_digits n '-' h) (by decide)

theorem append_dash_cancel :
    ∀ (l₁ l₂ t₁ t₂ : List Char), '-' ∉ l₁ → '-' ∉ l₂ →
      l₁ ++ '-' :: t₁ = l₂ ++ '-' :: t₂ → l₁ = l₂ ∧ t₁ = t₂ := by
  intro l₁
  induction l₁ with
  | nil =>
    intro l₂ t₁ t₂ _ h2 heq
    cases l₂ with
    | nil => simpa using heq
    | cons b bs =>
      simp only [List.nil_append, List.cons_append, List.cons.injEq] at heq
      exact absurd (heq.1 ▸ List.mem_cons_self b bs) h2
  | cons a as ih =>
    intro l₂ t₁ t₂ h1 h2 heq
    cases l₂ with
    | nil =>
      simp only [List.nil_append, List.cons_append, List.cons.injEq] at heq
      exact absurd (heq.1 ▸ List.mem_cons_self a as) h1
    | cons b bs =>
      simp only [List.cons_append, List.cons.injEq] at heq
      obtain ⟨rfl, heq2⟩ := heq
      have hrec := ih bs t₁ t₂ (fun h => h1 (List.mem_cons_of_mem _ h))
        (fun h => h2 (List.mem_cons_of_mem _ h)) heq2
      exact ⟨by rw [hrec.1], hrec.2⟩

theorem toDigitsCore_eq_digits :
    ∀ (n : Nat), n ≠ 0 → ∀ (f : Nat), n < f → ∀ (l : List Char),
      Nat.toDigitsCore 10 f n l =
        ((Nat.digits 10 n).map Nat.digitChar).reverse ++ l := by
  intro n
  induction n using Nat.strong_induction_on with
  | _ n ih =>
    intro hn f hf l
    match f with
    | f + 1 =>
      simp only [Nat.toDigitsCore]
      rw [Nat.digits_def' (by norm_num : (1 : ℕ) < 10) (Nat.pos_of_ne_zero hn)]
      by_cases h : n / 10 = 0
      · rw [if_pos h, h]
        simp
      · rw [if_neg h]
        have hlt : n / 10 < n := Nat.div_lt_self (Nat.pos_of_ne_zero hn) (by norm_num)
        have hfl : n / 10 < f := Nat.lt_of_lt_of_le hlt (Nat.lt_succ_iff.mp hf)
        rw [ih (n / 10) hlt h f hfl (Nat.digitChar (n % 10) :: l)]
        simp

theorem map_digitChar_inj :
    ∀ (ds es : List Nat), (∀ d ∈ ds, d < 10) → (∀ e ∈ es, e < 10) →
      ds.map Nat.digitChar = es.map Nat.digitChar → ds = es := by
  intro ds
  induction ds with
  | nil =>
    intro es _ _ h
    cases es with
    | nil => rfl
    | cons e es => simp at h
  | cons d ds ih =>
    intro es h1 h2 h
    cases es with
    | nil => simp at h
    | cons e es =>
      simp only [List.map_cons, List.cons.injEq] at h
      obtain ⟨hde, ht⟩ := h
      have hd : d = e := digitChar_inj_of_lt d (h1 d (List.mem_cons_self d ds))
        e (h2 e (List.mem_cons_self e es)) hde
      have hrest := ih es (fun x hx => h1 x (List.mem_cons_of_mem _ hx))
        (fun x hx => h2 x (List.mem_cons_of_mem _ hx)) ht
      rw [hd, hrest]

theorem toDigits_eq_digits (n : Nat) (hn : n ≠ 0) :
    Nat.toDigits 10 n = ((Nat.digits 10 n).map Nat.digitChar).reverse := by
  have := toDigitsCore_eq_digits n hn (n + 1) (Nat.lt_succ_self n) []
  simpa [Nat.toDigits] using this

theorem repr_injective : Function.Injective Nat.repr := by
  intro n m h
  have hdata : Nat.toDigits 10 n = Nat.toDigits 10 m := congrArg String.data h
  by_cases hn : n = 0
  · subst hn
    by_cases hm : m = 0
    · exact hm.symm
    · exfalso
      rw [toDigits_eq_digits m hm] at hdata
      have h0 : (Nat.digits 10 m).map Nat.digitChar = ['0'] := by
        have := congrArg List.reverse hdata
        simpa [Nat.toDigits, Nat.toDigitsCore] using this.symm
      have hd : Nat.digits 10 m = [0] := by
        refine map_digitChar_inj _ [0] (fun d hd => Nat.digits_lt_base (by norm_num) hd)
          (by simp) ?_
        simpa using h0
      have := Nat.ofDigits_digits 10 m
      rw [hd] at this
      simp [Nat.ofDigits] at this
      exact hm this.symm
  · by_cases hm : m = 0
    · exfalso
      subst hm
      rw [toDigits_eq_digits n hn] at hdata
      have h0 : (Nat.digits 10 n).map Nat.digitChar = ['0'] := by
        have := congrArg List.reverse hdata
        simpa [Nat.toDigits, Nat.toDigitsCore] using this
      have hd : Nat.digits 10 n = [0] := by
        refine map_digitChar_inj _ [0] (fun d hd => Nat.digits_lt_base (by norm_num) hd)
          (by simp) ?_
        simpa using h0
      have := Nat.ofDigits_digits 10 n
      rw [hd] at this
      simp [Nat.ofDigits] at this
      exact hn this.symm
    · rw [toDigits_eq_digits n hn, toDigits_eq_digits m hm] at hdata
      have hmap := List.reverse_injective hdata
      have hdig := map_digitChar_inj _ _
        (fun d hd => Nat.digits_lt_base (by norm_num) hd)
        (fun d hd => Nat.digits_lt_base (by norm_num) hd) hmap
      exact Nat.digits.injective 10 hdig

theorem generateId_inj (n₁ n₂ : Nat) (r₁ r₂ : String) :
    generateId n₁ r₁ = generateId n₂ r₂ ↔ n₁ = n₂ ∧ r₁ = r₂ := by
  constructor
  · intro h
    have hdata : ((Nat.repr n₁).data ++ ['-']) ++ r₁.data
        = ((Nat.repr n₂).data ++ ['-']) ++ r₂.data := congrArg String.data h
    rw [List.append_assoc, List.append_assoc] at hdata
    have hsplit := append_dash_cancel _ _ _ _ (repr_no_dash n₁) (repr_no_dash n₂) hdata
    exact ⟨repr_injective (String.ext hsplit.1), String.ext hsplit.2⟩
  · rintro ⟨rfl, rfl⟩
    rfl

theorem isDigit_no_sep {c : Char} (h : c.isDigit = true) : c ≠ '/' ∧ c ≠ '\\' := by
  constructor <;> rintro rfl <;> exact absurd h (by decide)

theorem sanitizeChar_no_sep (d : Char) : sanitizeChar d ≠ '/' ∧ sanitizeChar d ≠ '\\' := by
  unfold sanitizeChar
  split
  next hsafe =>
    constructor <;> rintro heq <;> rw [heq] at hsafe <;> exact absurd hsafe (by decide)
  next =>
    constructor <;> decide

theorem storageFilename_no_sep (now rnd : Nat) (name : String) :
    ∀ c ∈ (storageFilename now rnd name).data, c ≠ '/' ∧ c ≠ '\\' := by
  intro c hc
  have hc' : c ∈ (((Nat.repr now).data ++ ['-']) ++ (Nat.repr rnd).data ++ ['-'])
      ++ (sanitizeFilename name).data := hc
  simp only [List.mem_append] at hc'
  rcases hc' with (((h | h) | h) | h) | h
  · exact isDigit_no_sep (repr_data_all_digits now c h)
  · rcases List.mem_singleton.mp h with rfl
    exact ⟨by decide, by decide⟩
  · exact isDigit_no_sep (repr_data_all_digits rnd c h)
  · rcases List.mem_singleton.mp h with rfl
    exact ⟨by decide, by decide⟩
  · have : c ∈ name.data.map sanitizeChar := h
    rcases List.mem_map.mp this with ⟨d, _, rfl⟩
    exact sanitizeChar_no_sep d

theorem dash_mem_storageFilename (now rnd : Nat) (name : String) :
    '-' ∈ (storageFilename now rnd name).data := by
  have : '-' ∈ (((Nat.repr now).data ++ ['-']) ++ (Nat.repr rnd).data ++ ['-'])
      ++ (sanitizeFilename name).data := by
    simp
  exact this

theorem ne_dots_of_dash_mem {s : String} (h : '-' ∈ s.data) :
    s ≠ "" ∧ s ≠ "." ∧ s ≠ ".." := by
  refine ⟨?_, ?_, ?_⟩ <;> rintro rfl <;> exact absurd h (by decide)

theorem deleteBlobs_no_throw :
    ∀ (files : List FileRecord) (disk unlinkFails : List String),
      (∀ f ∈ files, f.path ∉ unlinkFails) →
      (deleteBlobs files disk unlinkFails).1 = true := by
  intro files
  induction files with
  | nil => intro disk u _; rfl
  | cons f fs ih =>
    intro disk u h
    simp only [deleteBlobs]
    by_cases hd : f.path ∈ disk
    · rw [if_pos hd, if_neg (h f (List.mem_cons_self f fs))]
      exact ih (disk.erase f.path) u (fun g hg => h g (List.mem_cons_of_mem f hg))
    · rw [if_neg hd]
      exact ih disk u (fun g hg => h g (List.mem_cons_of_mem f hg))

theorem uploadRoute_success (files : List FileRecord) (p : RawFilePart)
    (now rnd : Nat) (rndStr uploadDate : String) (h : p.size ≤ fileSizeLimit) :
    uploadRoute files (some p) now rnd rndStr uploadDate =
      (uploadSuccessResponse (mkFileInfo now rndStr uploadDate (diskStorageFile now rnd p))
         (files.length + 1),
       files ++ [mkFileInfo now rndStr uploadDate (diskStorageFile now rnd p)]) := by
  simp only [uploadRoute]
  rw [if_neg (by omega)]
  simp [uploadHandler, uploadSuccessResponse]

theorem processUploads_spec :
    ∀ (reqs : List UploadReq) (files : List FileRecord),
      (∀ r ∈ reqs, r.part.size ≤ fileSizeLimit) →
      processUploads files reqs =
        (expectedUploadResponses files.length reqs, files ++ reqs.map mkRec) := by
  intro reqs
  induction reqs with
  | nil => intro files _; simp [processUploads, expectedUploadResponses]
  | cons r rest ih =>
    intro files h
    simp only [processUploads, expectedUploadResponses]
    rw [uploadRoute_success files r.part r.now r.rnd r.rndStr r.uploadDate
      (h r (List.mem_cons_self r rest))]
    show (uploadSuccessResponse (mkRec r) (files.length + 1) ::
        (processUploads (files ++ [mkRec r]) rest).1,
      (processUploads (files ++ [mkRec r]) rest).2) = _
    rw [ih (files ++ [mkRec r]) (fun x hx => h x (List.mem_cons_of_mem r hx))]
    simp [List.append_assoc]

theorem expectedUploadResponses_get :
    ∀ (reqs : List UploadReq) (base k : Nat), k < reqs.length →
      ((expectedUploadResponses base reqs).get? k).map
          (fun resp => resp.jsonField "totalFiles")
        = some (some (.num (base + k + 1))) := by
  intro reqs
  induction reqs with
  | nil => intro base k hk; simp at hk
  | cons r rest ih =>
    intro base k hk
    cases k with
    | zero =>
      simp only [expectedUploadResponses, List.get?, Option.map_some']
      rfl
    | succ k =>
      simp only [expectedUploadResponses, List.get?]
      have step := ih (base + 1) k (by simpa using hk)
      have harith : base + 1 + k + 1 = base + (k + 1) + 1 := by omega
      rw [harith] at step
      exact step

/-- C1 counterexample: a concrete successful upload whose response serializes
the internal `path` field, both in the upload response's `file` object and in
the first entry of a subsequent list response. This refutes the claim that
`path` is never included in a client-visible response. -/
theorem upload_and_list_serialize_path :
    ((((uploadRoute [] (some examplePart) 5 7 "abc" "d").1.jsonField "file").bind
        (fun j => j.getField "path")) = some (.str "uploads/5-7-a.txt")) ∧
    ((((listHandler (uploadRoute [] (some examplePart) 5 7 "abc" "d").2).jsonField
          "files").bind
        (fun j => match j with
          | Json.arr (x :: _) => x.getField "path"
          | _ => none)) = some (.str "uploads/5-7-a.txt")) :=
  ⟨rfl, rfl⟩

/-- C1 (amended): every serialized FileRecord in a successful upload response
and in the list response carries exactly the fields
`id, name, size, path, uploadDate, type` — the internal `path` field IS
serialized to clients. -/
theorem serialized_record_field_set (files : List FileRecord) (p : RawFilePart)
    (now rnd : Nat) (rndStr uploadDate : String) (hsize : p.size ≤ fileSizeLimit) :
    ((((uploadRoute files (some p) now rnd rndStr uploadDate).1.jsonField "file").map
        Json.fieldNames) = some ["id", "name", "size", "path", "uploadDate", "type"]) ∧
    (((listHandler files).jsonField "files") = some (.arr (files.map fileRecordToJson))) ∧
    (∀ f ∈ files, (fileRecordToJson f).fieldNames
      = ["id", "name", "size", "path", "uploadDate", "type"]) := by
  refine ⟨?_, rfl, ?_⟩
  · rw [uploadRoute_success files p now rnd rndStr uploadDate hsize]
    rfl
  · intro f _
    rfl

/-- Witness for the amended C1 theorem at a concrete input. -/
theorem serialized_record_field_set_witness :
    examplePart.size ≤ fileSizeLimit ∧
    (((((uploadRoute [exampleRecord] (some examplePart) 5 7 "abc" "d").1.jsonField
          "file").map Json.fieldNames)
        = some ["id", "name", "size", "path", "uploadDate", "type"]) ∧
     (((listHandler [exampleRecord]).jsonField "files")
        = some (.arr ([exampleRecord].map fileRecordToJson))) ∧
     (∀ f ∈ [exampleRecord], (fileRecordToJson f).fieldNames
        = ["id", "name", "size", "path", "uploadDate", "type"])) :=
  ⟨by norm_num [examplePart, fileSizeLimit],
   serialized_record_field_set [exampleRecord] examplePart 5 7 "abc" "d"
     (by norm_num [examplePart, fileSizeLimit])⟩

/-- C2 counterexample: an upload one byte over the 10 MiB limit is answered
by the error middleware with status 500 (`INTERNAL_ERROR`), not 413 or 400,
refuting the claimed status; the registry is indeed left unchanged. -/
theorem oversized_upload_not_4xx :
    (uploadRoute [] (some ⟨"big.bin", 10485761, "application/octet-stream"⟩)
        11 13 "r" "d") = (errorMiddlewareResponse, []) ∧
    errorMiddlewareResponse.status = 500 ∧
    errorMiddlewareResponse.status ≠ 413 ∧
    errorMiddlewareResponse.status ≠ 400 ∧
    (10485761 : Nat) > fileSizeLimit :=
  ⟨rfl, rfl, by decide, by decide, by norm_num [fileSizeLimit]⟩

/-- C2 (amended): every upload whose file part exceeds the 10 MiB limit is
rejected through the error middleware with status 500 and code
`INTERNAL_ERROR`, and the rejected file does not appear in the registry. -/
theorem oversized_upload_rejected_500 (files : List FileRecord) (p : RawFilePart)
    (now rnd : Nat) (rndStr uploadDate : String) (h : p.size > fileSizeLimit) :
    uploadRoute files (some p) now rnd rndStr uploadDate
      = (errorMiddlewareResponse, files) ∧
    errorMiddlewareResponse.status = 500 ∧
    errorMiddlewareResponse.jsonField "code" = some (.str "INTERNAL_ERROR") := by
  refine ⟨?_, rfl, rfl⟩
  simp only [uploadRoute]
  rw [if_pos h]

/-- Witness for the amended C2 theorem at a concrete input. -/
theorem oversized_upload_rejected_500_witness :
    ((10485761 : Nat) > fileSizeLimit) ∧
    (uploadRoute [exampleRecord] (some ⟨"big.bin", 10485761, "x"⟩) 11 13 "r" "d"
        = (errorMiddlewareResponse, [exampleRecord]) ∧
     errorMiddlewareResponse.status = 500 ∧
     errorMiddlewareResponse.jsonField "code" = some (.str "INTERNAL_ERROR")) :=
  ⟨by norm_num [fileSizeLimit],
   oversized_upload_rejected_500 [exampleRecord] ⟨"big.bin", 10485761, "x"⟩ 11 13 "r" "d"
     (by norm_num [fileSizeLimit])⟩

/-- C9: an upload request without a file part is rejected with status 400 and
code `NO_FILE`, and the registry is returned exactly as it was. -/
theorem upload_without_file_rejected (files : List FileRecord) (now rnd : Nat)
    (rndStr uploadDate : String) :
    uploadRoute files none now rnd rndStr uploadDate
      = ({ status := 400,
           body := .json (.obj [("error", .str "No file uploaded"),
                                ("code", .str "NO_FILE")]) }, files) := rfl

/-- C5: for every client-supplied filename (path traversal included), the
storage key generated by the sanitizing filename callback is nonempty, is not
a dot-directory, and contains no path separator, so the blob path is the
upload directory joined with a key that cannot resolve outside it. -/
theorem storage_key_inside_root (now rnd : Nat) (name : String) :
    resolvesInsideRoot (storageFilename now rnd name) ∧
    storagePathOf now rnd name = uploadDir ++ storageFilename now rnd name := by
  refine ⟨?_, rfl⟩
  obtain ⟨h1, h2, h3⟩ := ne_dots_of_dash_mem (dash_mem_storageFilename now rnd name)
  exact ⟨h1, h2, h3, storageFilename_no_sep now rnd name⟩

/-- C7: delete-all on a registry of N records (whose blob removals do not
throw) reports `deletedCount = N`, empties the registry so that a list
returns zero records, and a second delete-all reports `deletedCount = 0`. -/
theorem clear_all_idempotent (files : List FileRecord)
    (disk unlinkFails disk₂ unlinkFails₂ : List String)
    (h : ∀ f ∈ files, f.path ∉ unlinkFails) :
    (clearHandler files disk unlinkFails).1.status = 200 ∧
    (clearHandler files disk unlinkFails).1.jsonField "deletedCount"
      = some (.num files.length) ∧
    (clearHandler files disk unlinkFails).2.1 = [] ∧
    (listHandler (clearHandler files disk unlinkFails).2.1).jsonField "count"
      = some (.num 0) ∧
    (clearHandler (clearHandler files disk unlinkFails).2.1 disk₂ unlinkFails₂).1.jsonField
        "deletedCount" = some (.num 0) := by
  have hok := deleteBlobs_no_throw files disk unlinkFails h
  rcases hdb : deleteBlobs files disk unlinkFails with ⟨b, diskAfter⟩
  rw [hdb] at hok
  subst hok
  have hclear : clearHandler files disk unlinkFails
      = ({ status := 200,
           body := .json (.obj [("message", .str "All files deleted successfully"),
                                ("deletedCount", .num files.length)]) },
         [], diskAfter) := by
    simp only [clearHandler, hdb]
  rw [hclear]
  exact ⟨rfl, rfl, rfl, rfl, rfl⟩

/-- Witness for the C7 theorem at a concrete input. -/
theorem clear_all_idempotent_witness :
    (∀ f ∈ [exampleRecord], f.path ∉ ([] : List String)) ∧
    ((clearHandler [exampleRecord] [exampleRecord.path] []).1.status = 200 ∧
     (clearHandler [exampleRecord] [exampleRecord.path] []).1.jsonField "deletedCount"
       = some (.num 1) ∧
     (clearHandler [exampleRecord] [exampleRecord.path] []).2.1 = [] ∧
     (listHandler (clearHandler [exampleRecord] [exampleRecord.path] []).2.1).jsonField
         "count" = some (.num 0) ∧
     (clearHandler (clearHandler [exampleRecord] [exampleRecord.path] []).2.1
         [] []).1.jsonField "deletedCount" = some (.num 0)) :=
  ⟨by simp,
   clear_all_idempotent [exampleRecord] [exampleRecord.path] [] [] [] (by simp)⟩

/-- C8 counterexample: a registry record whose blob is absent from disk is
answered with 404 `FILE_MISSING`, but the response carries NO `id` field,
refuting the claim that both 404 modes include the requested id. -/
theorem download_missing_blob_lacks_id :
    (downloadHandler [exampleRecord] [] exampleRecord.id).status = 404 ∧
    (downloadHandler [exampleRecord] [] exampleRecord.id).jsonField "code"
      = some (.str "FILE_MISSING") ∧
    (downloadHandler [exampleRecord] [] exampleRecord.id).jsonField "id" = none :=
  ⟨rfl, rfl, rfl⟩

/-- C8 (amended): an unknown id yields 404 `NOT_FOUND` including the id; a
known record whose blob is absent yields 404 `FILE_MISSING` WITHOUT the id.
The two failure modes stay distinguishable through the code field. -/
theorem download_failure_modes (files : List FileRecord) (disk : List String)
    (fileId : String) :
    ((∀ f ∈ files, f.id ≠ fileId) →
      downloadHandler files disk fileId
        = { status := 404,
            body := .json (.obj [("error", .str "File not found"),
                                 ("code", .str "NOT_FOUND"),
                                 ("id", .str fileId)]) }) ∧
    (∀ file, files.find? (fun f => f.id == fileId) = some file → file.path ∉ disk →
      downloadHandler files disk fileId
        = { status := 404,
            body := .json (.obj [("error", .str "File not found on server"),
                                 ("code", .str "FILE_MISSING")]) }) := by
  constructor
  · intro hnone
    have hfind : files.find? (fun f => f.id == fileId) = none := by
      rw [List.find?_eq_none]
      intro f hf
      simpa using hnone f hf
    simp only [downloadHandler, hfind]
  · intro file hfind habs
    simp only [downloadHandler, hfind]
    rw [if_neg habs]

/-- Witness for the amended C8 theorem at concrete inputs, covering both
failure modes. -/
theorem download_failure_modes_witness :
    ((∀ f ∈ [exampleRecord], f.id ≠ "zzz") ∧
     downloadHandler [exampleRecord] [] "zzz"
       = { status := 404,
           body := .json (.obj [("error", .str "File not found"),
                                ("code", .str "NOT_FOUND"),
                                ("id", .str "zzz")]) }) ∧
    ([exampleRecord].find? (fun f => f.id == exampleRecord.id) = some exampleRecord ∧
     downloadHandler [exampleRecord] [] exampleRecord.id
       = { status := 404,
           body := .json (.obj [("error", .str "File not found on server"),
                                ("code", .str "FILE_MISSING")]) }) :=
  ⟨⟨by decide,
    (download_failure_modes [exampleRecord] [] "zzz").1 (by decide)⟩,
   ⟨rfl,
    (download_failure_modes [exampleRecord] [] exampleRecord.id).2 exampleRecord rfl
      (by simp)⟩⟩

/-- C3 counterexample: when the blob exists but its removal throws, delete-one
answers 500 `DELETE_ERROR` and the registry entry is NOT removed, refuting
the claim that a blob-removal failure still removes the record and reports
success. -/
theorem delete_blob_throw_keeps_record :
    (deleteHandler [exampleRecord] [exampleRecord.path] [exampleRecord.path]
        exampleRecord.id).1.status = 500 ∧
    (deleteHandler [exampleRecord] [exampleRecord.path] [exampleRecord.path]
        exampleRecord.id).1.jsonField "code" = some (.str "DELETE_ERROR") ∧
    (deleteHandler [exampleRecord] [exampleRecord.path] [exampleRecord.path]
        exampleRecord.id).2.1 = [exampleRecord] :=
  ⟨rfl, rfl, rfl⟩

/-- C3 (amended): for a present id, delete-one removes the registry entry and
reports success when the blob is already absent (idempotent skip), but when
blob removal throws it reports 500 `DELETE_ERROR` and the registry entry
remains. -/
theorem delete_one_blob_failure_modes (files : List FileRecord)
    (disk unlinkFails : List String) (fileId : String) (i : Nat)
    (hfind : files.findIdx? (fun f => f.id == fileId) = some i) :
    ((files.getD i default).path ∉ disk →
      (deleteHandler files disk unlinkFails fileId).1.status = 200 ∧
      (deleteHandler files disk unlinkFails fileId).2.1 = files.eraseIdx i) ∧
    ((files.getD i default).path ∈ disk → (files.getD i default).path ∈ unlinkFails →
      (deleteHandler files disk unlinkFails fileId).1.status = 500 ∧
      (deleteHandler files disk unlinkFails fileId).2.1 = files) := by
  constructor
  · intro habs
    simp only [deleteHandler, hfind]
    rw [if_neg habs]
    exact ⟨rfl, rfl⟩
  · intro hdisk hthrow
    simp only [deleteHandler, hfind]
    rw [if_pos hdisk, if_pos hthrow]
    exact ⟨rfl, rfl⟩

/-- Witness for the amended C3 theorem at concrete inputs, covering both the
absent-blob success mode and the throwing-unlink failure mode. -/
theorem delete_one_blob_failure_modes_witness :
    ([exampleRecord].findIdx? (fun f => f.id == exampleRecord.id) = some 0) ∧
    (((deleteHandler [exampleRecord] [] [] exampleRecord.id).1.status = 200 ∧
      (deleteHandler [exampleRecord] [] [] exampleRecord.id).2.1
        = [exampleRecord].eraseIdx 0) ∧
     ((deleteHandler [exampleRecord] [exampleRecord.path] [exampleRecord.path]
          exampleRecord.id).1.status = 500 ∧
      (deleteHandler [exampleRecord] [exampleRecord.path] [exampleRecord.path]
          exampleRecord.id).2.1 = [exampleRecord])) :=
  ⟨rfl,
   ⟨(delete_one_blob_failure_modes [exampleRecord] [] [] exampleRecord.id 0 rfl).1
      (by simp),
    (delete_one_blob_failure_modes [exampleRecord] [exampleRecord.path]
        [exampleRecord.path] exampleRecord.id 0 rfl).2
      (by simp) (by simp)⟩⟩

/-- C4 counterexample: two uploads served in the same millisecond with the
same random draw receive the same generated id, and insertion performs no
duplicate check, so the registry reaches a state with a duplicate id. -/
theorem duplicate_id_reachable :
    ((processUploads [] [exampleReq, exampleReq]).2.map FileRecord.id)
      = ["5-abc", "5-abc"] ∧
    ¬ ((processUploads [] [exampleReq, exampleReq]).2.map FileRecord.id).Nodup := by
  constructor
  · rfl
  · intro h
    have h2 : ¬ (["5-abc", "5-abc"] : List String).Nodup := by decide
    exact h2 (by
      have he : (processUploads [] [exampleReq, exampleReq]).2.map FileRecord.id
          = ["5-abc", "5-abc"] := rfl
      rw [he] at h
      exact h)

/-- C4 (amended): the id of every successful upload is exactly
`generateId now rndStr`, appended in order, and two generated ids coincide
exactly when both the millisecond timestamp and the random suffix coincide;
uniqueness therefore holds only for distinct (timestamp, suffix) pairs, and
insertion never deduplicates. -/
theorem upload_ids_exactly_generated (files : List FileRecord)
    (reqs : List UploadReq) (h : ∀ r ∈ reqs, r.part.size ≤ fileSizeLimit) :
    ((processUploads files reqs).2.map FileRecord.id
        = files.map FileRecord.id ++ reqs.map (fun r => generateId r.now r.rndStr)) ∧
    ∀ (n₁ n₂ : Nat) (r₁ r₂ : String),
      generateId n₁ r₁ = generateId n₂ r₂ ↔ n₁ = n₂ ∧ r₁ = r₂ := by
  constructor
  · rw [processUploads_spec reqs files h]
    simp [mkRec, mkFileInfo, Function.comp]
  · exact generateId_inj

/-- Witness for the amended C4 theorem at a concrete input. -/
theorem upload_ids_exactly_generated_witness :
    (∀ r ∈ [exampleReq], r.part.size ≤ fileSizeLimit) ∧
    (((processUploads [] [exampleReq]).2.map FileRecord.id
        = ([] : List FileRecord).map FileRecord.id
            ++ [exampleReq].map (fun r => generateId r.now r.rndStr)) ∧
     ∀ (n₁ n₂ : Nat) (r₁ r₂ : String),
       generateId n₁ r₁ = generateId n₂ r₂ ↔ n₁ = n₂ ∧ r₁ = r₂) :=
  ⟨by decide, upload_ids_exactly_generated [] [exampleReq] (by decide)⟩

/-- C6: starting from an empty registry, N successful uploads leave exactly
the N corresponding records in upload order, each record's size equals the
uploaded payload's byte length, the list response reports them in that order
with count N, and the k-th upload response's `totalFiles` equals k+1, the
registry count immediately after that insert. -/
theorem upload_sequence_list_order (reqs : List UploadReq)
    (h : ∀ r ∈ reqs, r.part.size ≤ fileSizeLimit) :
    ((processUploads [] reqs).2 = reqs.map mkRec) ∧
    ((processUploads [] reqs).2.length = reqs.length) ∧
    ((processUploads [] reqs).2.map FileRecord.size
      = reqs.map (fun r => r.part.size)) ∧
    (listHandler (processUploads [] reqs).2
      = { status := 200,
          body := .json (.obj [("files", .arr ((reqs.map mkRec).map fileRecordToJson)),
                               ("count", .num reqs.length)]) }) ∧
    (∀ k, k < reqs.length →
      (((processUploads [] reqs).1.get? k).map (fun resp => resp.jsonField "totalFiles"))
        = some (some (.num (k + 1)))) := by
  have hspec := processUploads_spec reqs [] h
  refine ⟨?_, ?_, ?_, ?_, ?_⟩
  · rw [hspec]
    rfl
  · rw [hspec]
    simp
  · rw [hspec]
    simp [mkRec, mkFileInfo, diskStorageFile, Function.comp]
  · rw [hspec]
    simp [listHandler]
  · intro k hk
    rw [hspec]
    have := expectedUploadResponses_get reqs 0 k hk
    simpa using this

/-- Witness for the C6 theorem at a concrete input. -/
theorem upload_sequence_list_order_witness :
    (∀ r ∈ [exampleReq], r.part.size ≤ fileSizeLimit) ∧
    (((processUploads [] [exampleReq]).2 = [exampleReq].map mkRec) ∧
     ((processUploads [] [exampleReq]).2.length = [exampleReq].length) ∧
     ((processUploads [] [exampleReq]).2.map FileRecord.size
       = [exampleReq].map (fun r => r.part.size)) ∧
     (listHandler (processUploads [] [exampleReq]).2
       = { status := 200,
           body := .json (.obj [("files",
                                 .arr (([exampleReq].map mkRec).map fileRecordToJson)),
                                ("count", .num [exampleReq].length)]) }) ∧
     (∀ k, k < [exampleReq].length →
       (((processUploads [] [exampleReq]).1.get? k).map
           (fun resp => resp.jsonField "totalFiles"))
         = some (some (.num (k + 1))))) :=
  ⟨by decide, upload_sequence_list_order [exampleReq] (by decide)⟩

/-- C10: a successful delete-one on a present id removes exactly the first
record whose id matches — the registry becomes the records before it followed
by the records after it, all others untouched and in order — and the
response's `deletedFile` equals the removed record's name. -/
theorem delete_one_exact_frame (files : List FileRecord)
    (disk unlinkFails : List String) (fileId : String) (i : Nat)
    (h : i < files.length) (hid : (files.get ⟨i, h⟩).id = fileId)
    (hfirst : ∀ j (hj : j < i), (files.get ⟨j, Nat.lt_trans hj h⟩).id ≠ fileId)
    (hok : (files.get ⟨i, h⟩).path ∉ unlinkFails) :
    (deleteHandler files disk unlinkFails fileId).1.status = 200 ∧
    (deleteHandler files disk unlinkFails fileId).1.jsonField "deletedFile"
      = some (.str (files.get ⟨i, h⟩).name) ∧
    (deleteHandler files disk unlinkFails fileId).2.1
      = files.take i ++ files.drop (i + 1) := by
  have hfind : files.findIdx? (fun f => f.id == fileId) = some i := by
    rw [List.findIdx?_eq_some_iff_getElem]
    refine ⟨h, ?_, ?_⟩
    · simpa using hid
    · intro j hj
      simpa using hfirst j hj
  have hgetD : files.getD i default = files.get ⟨i, h⟩ := by
    simp [List.getD_eq_getElem?_getD, List.getElem?_eq_getElem h]
  simp only [deleteHandler, hfind, hgetD]
  by_cases hdisk : (files.get ⟨i, h⟩).path ∈ disk
  · rw [if_pos hdisk, if_neg hok]
    exact ⟨rfl, rfl, List.eraseIdx_eq_take_drop_succ files i⟩
  · rw [if_neg hdisk]
    exact ⟨rfl, rfl, List.eraseIdx_eq_take_drop_succ files i⟩

/-- Witness for the C10 theorem: deleting the second of two records leaves
exactly the first one. -/
theorem delete_one_exact_frame_witness :
    (1 < [exampleRecord, exampleRecordB].length) ∧
    ((deleteHandler [exampleRecord, exampleRecordB] [] [] "2-b").1.status = 200 ∧
     (deleteHandler [exampleRecord, exampleRecordB] [] [] "2-b").1.jsonField
         "deletedFile" = some (.str "b.txt") ∧
     (deleteHandler [exampleRecord, exampleRecordB] [] [] "2-b").2.1
       = [exampleRecord, exampleRecordB].take 1
           ++ [exampleRecord, exampleRecordB].drop 2) :=
  ⟨by norm_num,
   delete_one_exact_frame [exampleRecord, exampleRecordB] [] [] "2-b" 1
     (by norm_num) rfl
     (by
       intro j hj
       have hj0 : j = 0 := by omega
       subst hj0
       show exampleRecord.id ≠ "2-b"
       decide)
     (by simp)⟩
